import Mathlib

/-!
Shallow embedding of `src/model/endpoint_serving.py`, the SageMaker-style
request adapter of this repository: `input_fn` (Deserializer), `predict_fn`
(Predictor) and `output_fn` (Responder), together with models of the external
library calls they make (`json.loads`, Python `dict` subscripting, and
`torch.tensor(data, dtype=torch.bfloat16)`).

Conventions of the embedding:
* JSON numbers are modelled as exact rationals; the bfloat16 cast performed by
  `torch.tensor(..., dtype=torch.bfloat16)` is modelled by `toBF16`,
  round-to-nearest-even onto the bfloat16 grid (1 sign bit, 8 exponent bits,
  7 explicit mantissa bits), with overflow to infinity.
* Python exceptions are modelled by the `PyError` type and fallible calls
  return `Except PyError _`; an uncaught exception is an `Except.error` value
  propagating to the caller (the hosting runtime), exactly as in the source,
  which contains no try/except.
* The raw request body is modelled by `RequestBody`: either a string the JSON
  parser rejects, or a payload that parses to a JSON value.  The character
  level algorithm of `json.loads` is external library code and is not part of
  this repository.
* The externally supplied model object (`model_artifacts`) is modelled by
  `ModelHandle`: a single `predict` capability in an arbitrary effect context
  `m`, so that recording stubs and failing stubs can instantiate it.
-/

namespace EndpointServing

/-- A parsed JSON value, the possible results of `json.loads`. -/
inductive Json where
| null : Json
| bool (b : Bool) : Json
| num (q : ℚ) : Json
| str (s : String) : Json
| arr (elems : List Json) : Json
| obj (fields : List (String × Json)) : Json
deriving Repr

/-- Python exceptions that the adapter's calls can raise, grouped the way the
code raises them: `parseError` is `json.JSONDecodeError` from `json.loads`,
`keyError` is the `KeyError` of a `dict` lacking the subscripted key,
`typeError` is subscripting a non-`dict` JSON value with a string, and
`validationError` covers the `TypeError`/`ValueError` family raised by
`torch.tensor` on non-numeric or ragged input data. -/
inductive PyError where
| parseError : PyError
| keyError : PyError
| typeError : PyError
| validationError : PyError
deriving DecidableEq, Repr

/-- The spec's §7 taxonomy names "ParseError" the class of Deserializer
failures where the "raw payload is not valid JSON or lacks the `inputs`
field"; in Python terms these are `json.JSONDecodeError` and `KeyError`. -/
def isSpecParseError : PyError → Bool
| .parseError => true
| .keyError => true
| _ => false

/-- Two raised to an integer power, as a rational. -/
def pow2 (z : ℤ) : ℚ :=
  if 0 ≤ z then ((2 ^ z.toNat : ℕ) : ℚ) else 1 / ((2 ^ (-z).toNat : ℕ) : ℚ)

/-- Fuel-driven floor base-2 logarithm on naturals. -/
def log2fuel : ℕ → ℕ → ℕ
| 0, _ => 0
| f + 1, n => if 2 ≤ n then log2fuel f (n / 2) + 1 else 0

/-- Floor base-2 logarithm of a natural (0 for 0 and 1). -/
def natLog2 (n : ℕ) : ℕ := log2fuel n n

/-- Floor of a rational, via floor division of numerator by denominator. -/
def ratFloor (q : ℚ) : ℤ := q.num.fdiv (q.den : ℤ)

/-- Round-half-to-even of a rational to an integer (IEEE default rounding). -/
def roundHalfEven (r : ℚ) : ℤ :=
  let n := ratFloor r
  let f := r - (n : ℚ)
  if f < 1 / 2 then n
  else if 1 / 2 < f then n + 1
  else if n % 2 = 0 then n else n + 1

/-- Floor of the base-2 logarithm of a positive rational. -/
def floorLog2 (q : ℚ) : ℤ :=
  let g : ℤ := (natLog2 q.num.natAbs : ℤ) - (natLog2 q.den : ℤ)
  if pow2 (g + 1) ≤ q then g + 1
  else if pow2 g ≤ q then g
  else g - 1

/-- A bfloat16 value originating from a real number: a finite representable
value, or an infinity after overflow.  (NaN cannot arise from a rational.) -/
inductive BF16 where
| finite (val : ℚ) : BF16
| inf (neg : Bool) : BF16
deriving DecidableEq, Repr

/-- Largest finite bfloat16 magnitude: 1.1111111₂ × 2¹²⁷ = 255 · 2¹²⁰. -/
def bf16MaxFinite : ℚ := ((255 : ℕ) : ℚ) * pow2 120

/-- Cast a rational to bfloat16 by round-to-nearest-even: normal numbers have
unbiased exponents −126..127 and a 7-bit fractional mantissa (unit in the last
place 2^(e−7)), subnormals live on the grid of multiples of 2^(−133); results
beyond the largest finite value overflow to infinity. -/
def toBF16 (q : ℚ) : BF16 :=
  if q = 0 then .finite 0
  else
    let s : Bool := decide (q < 0)
    let a : ℚ := if s then -q else q
    let e := floorLog2 a
    let sigma : ℤ := if e < -126 then -133 else e - 7
    let m := roundHalfEven (a * pow2 (-sigma))
    let v : ℚ := (m : ℚ) * pow2 sigma
    if bf16MaxFinite < v then .inf s
    else .finite (if s then -v else v)

/-- A torch tensor: its shape and its flattened (row-major) element data. -/
structure Tensor where
  shape : List ℕ
  data : List BF16
deriving DecidableEq, Repr

/-- The raw request payload handed to `input_fn` by the hosting runtime:
either a body that the JSON parser rejects, or one parsing to a JSON value. -/
inductive RequestBody where
| malformed (raw : String) : RequestBody
| wellFormed (j : Json) : RequestBody

/-- Model of `json.loads`: raises `JSONDecodeError` on a malformed body and
returns the parsed JSON value otherwise. -/
def json_loads : RequestBody → Except PyError Json
| .malformed _ => .error .parseError
| .wellFormed j => .ok j

/-- Python `dict` lookup for the dict `json.loads` builds from a JSON object:
on duplicate keys the later binding wins, as in CPython's json module. -/
def dictGet (fields : List (String × Json)) (key : String) : Option Json :=
  fields.foldl (fun acc kv => if kv.1 = key then some kv.2 else acc) none

/-- Model of the Python subscript `parsed[key]` on a `json.loads` result:
`KeyError` when the object lacks the key, `TypeError` when the parsed value is
not an object (not a `dict`). -/
def subscript (j : Json) (key : String) : Except PyError Json :=
  match j with
  | .obj fields =>
    match dictGet fields key with
    | some v => .ok v
    | none => .error .keyError
  | _ => .error .typeError

mutual

/-- Model of `torch.tensor(data, dtype=torch.bfloat16)` on a JSON value:
numbers are cast to bfloat16, booleans are numeric in Python (`bool` is a
subclass of `int`) and convert to 1 and 0, uniformly-shaped nested lists give
a tensor of that shape, and anything else (strings, nulls, objects, ragged
lists) raises from the `TypeError`/`ValueError` family, here
`validationError`. -/
def torch_tensor_bfloat16 : Json → Except PyError Tensor
| .num q => .ok ⟨[], [toBF16 q]⟩
| .bool b => .ok ⟨[], [toBF16 (if b then 1 else 0)]⟩
| .arr xs =>
  match tensorList xs with
  | .error e => .error e
  | .ok ts =>
    match ts with
    | [] => .ok ⟨[0], []⟩
    | t :: rest =>
      if rest.all (fun u => u.shape = t.shape)
      then .ok ⟨xs.length :: t.shape, ((t :: rest).map Tensor.data).flatten⟩
      else .error .validationError
| _ => .error .validationError

/-- Elementwise conversion of a list of JSON values, stopping at the first
failure (as `torch.tensor` raises on the first offending element). -/
def tensorList : List Json → Except PyError (List Tensor)
| [] => .ok []
| j :: js =>
  match torch_tensor_bfloat16 j with
  | .error e => .error e
  | .ok t =>
    match tensorList js with
    | .error e => .error e
    | .ok ts => .ok (t :: ts)

end

mutual

/-- The shape `torch.tensor` would infer for a JSON value: `some s` exactly
when the value is a number, a boolean, or a uniformly-shaped nested array of
such scalars; `none` when it contains non-numeric or malformed (ragged)
entries. -/
def jsonShape : Json → Option (List ℕ)
| .num _ => some []
| .bool _ => some []
| .arr xs =>
  match shapeList xs with
  | none => none
  | some ss =>
    match ss with
    | [] => some [0]
    | s :: rest => if rest.all (fun u => u = s) then some (xs.length :: s) else none
| _ => none

/-- Shapes of a list of JSON values, `none` as soon as one element has no
shape. -/
def shapeList : List Json → Option (List (List ℕ))
| [] => some []
| j :: js =>
  match jsonShape j with
  | none => none
  | some s =>
    match shapeList js with
    | none => none
    | some ss => some (s :: ss)

end

/-- Input data that `torch.tensor` accepts: numbers, booleans and uniform
nested arrays of them.  Its negation formalises the spec's "non-numeric or
malformed entries". -/
def validTensorData (j : Json) : Bool := (jsonShape j).isSome

/-- The value a scalar JSON entry contributes to a bfloat16 tensor: numbers
are cast, booleans become 1 and 0; non-scalar or non-numeric entries have
none. -/
def scalarVal : Json → Option BF16
| .num q => some (toBF16 q)
| .bool b => some (toBF16 (if b then 1 else 0))
| _ => none

/-- The Deserializer of the source:
`data = json.loads(request_body)["inputs"]` then
`torch.tensor(data, dtype=torch.bfloat16)`; any exception along the way
propagates uncaught.  The `request_content_type` parameter is accepted and
never used, as in the source. -/
def input_fn (request_body : RequestBody) (request_content_type : String) :
    Except PyError Tensor :=
  match json_loads request_body with
  | .error e => .error e
  | .ok parsed =>
    match subscript parsed "inputs" with
    | .error e => .error e
    | .ok data => torch_tensor_bfloat16 data

/-- One call made to the model's prediction capability, with the keyword
arguments of the source: `context`, `prediction_length`, `num_samples`. -/
structure PredCall where
  context : Tensor
  prediction_length : ℤ
  num_samples : ℤ
deriving DecidableEq, Repr

/-- The externally owned model object (`model_artifacts`): an opaque handle
exposing one prediction capability, in an arbitrary effect context `m` so
stubs can record calls or fail. -/
structure ModelHandle (m : Type → Type) (α : Type) where
  predict : Tensor → ℤ → ℤ → m α

/-- The Predictor of the source: forwards the context tensor to
`model_artifacts.predict` with `prediction_length=12`, `num_samples=20`, and
returns whatever that call produces. -/
def predict_fn {m : Type → Type} {α : Type} (input_object : Tensor)
    (model_artifacts : ModelHandle m α) : m α :=
  let val_ts_tensor := input_object
  model_artifacts.predict val_ts_tensor 12 20

/-- The Responder of the source: returns `predictions` unchanged; the
`content_type` parameter is accepted and never used. -/
def output_fn {α : Type} (predictions : α) (content_type : String) : α :=
  predictions

/-- A stub capability that records each call it receives (appending to a call
log) and answers with `f` applied to the call's arguments. -/
def recordingStub {α : Type} (f : Tensor → ℤ → ℤ → α) :
    ModelHandle (fun β => List PredCall → β × List PredCall) α :=
  ⟨fun c pl ns log => (f c pl ns, log ++ [⟨c, pl, ns⟩])⟩

/-- A recording stub whose answers may fail, modelling a model capability
that raises. -/
def recordingErrStub {ε α : Type} (f : Tensor → ℤ → ℤ → Except ε α) :
    ModelHandle (fun β => List PredCall → Except ε β × List PredCall) α :=
  ⟨fun c pl ns log => (f c pl ns, log ++ [⟨c, pl, ns⟩])⟩

/-- C5: the Responder returns every Prediction Result structurally unchanged,
for any declared response content type: `output_fn R ct = R`. -/
theorem output_fn_identity {α : Type} (R : α) (ct : String) :
    output_fn R ct = R := rfl

/-- C8: the request content type has no influence on the Deserializer: for
every request body and any two content type strings, `input_fn` produces the
same result (same tensor or same error). -/
theorem input_fn_content_type_irrelevant (body : RequestBody) (c1 c2 : String) :
    input_fn body c1 = input_fn body c2 := rfl

/-- C2: for every context tensor `T` and every behaviour `f` of the model
handle's prediction capability, `predict_fn` invokes the capability exactly
once — the recorded call log is the single call with context `T`,
`prediction_length = 12` and `num_samples = 20` — and returns exactly the
value the capability returned for that call, unmodified. -/
theorem predict_fn_calls_once {α : Type} (T : Tensor) (f : Tensor → ℤ → ℤ → α) :
    predict_fn T (recordingStub f) [] = (f T 12 20, [⟨T, 12, 20⟩]) := rfl

/-- C7: when the model capability raises an error `e` on the call it
receives, `predict_fn` propagates exactly `e` unchanged, the capability was
invoked exactly once (so no retry happened), and no partial result is
returned — the outcome is the error alone. -/
theorem predict_fn_propagates_error {ε α : Type} (T : Tensor) (e : ε)
    (f : Tensor → ℤ → ℤ → Except ε α) (h : f T 12 20 = .error e) :
    predict_fn T (recordingErrStub f) [] = (Except.error e, [⟨T, 12, 20⟩]) := by
  simp [predict_fn, recordingErrStub, h]

/-- Witness for C7 at a concrete tensor and a capability that raises. -/
theorem predict_fn_propagates_error_witness :
    predict_fn ⟨[1], [BF16.finite 1]⟩
        (recordingErrStub (fun _ _ _ => (Except.error PyError.validationError : Except PyError ℕ))) []
      = (Except.error PyError.validationError, [⟨⟨[1], [BF16.finite 1]⟩, 12, 20⟩]) :=
  predict_fn_propagates_error ⟨[1], [BF16.finite 1]⟩ PyError.validationError _ rfl

mutual

/-- When a JSON value has a uniform shape, the tensor conversion succeeds and
the resulting tensor carries exactly that shape. -/
theorem torch_ok (j : Json) (s : List ℕ) (h : jsonShape j = some s) :
    ∃ d, torch_tensor_bfloat16 j = .ok ⟨s, d⟩ := by
  cases j with
  | null => simp [jsonShape] at h
  | str t => simp [jsonShape] at h
  | obj fs => simp [jsonShape] at h
  | num q =>
    simp only [jsonShape, Option.some.injEq] at h
    exact ⟨[toBF16 q], by simp [torch_tensor_bfloat16, ← h]⟩
  | bool b =>
    simp only [jsonShape, Option.some.injEq] at h
    exact ⟨[toBF16 (if b then 1 else 0)], by simp [torch_tensor_bfloat16, ← h]⟩
  | arr xs =>
    cases hs : shapeList xs with
    | none => simp [jsonShape, hs] at h
    | some ss =>
      obtain ⟨ts, hts, hmap⟩ := torchList_ok xs ss hs
      simp only [jsonShape, hs] at h
      cases ss with
      | nil =>
        have hts0 : ts = [] := by simpa using hmap
        simp only [Option.some.injEq] at h
        refine ⟨[], ?_⟩
        simp [torch_tensor_bfloat16, hts, hts0, ← h]
      | cons s0 srest =>
        cases ts with
        | nil => simp at hmap
        | cons t trest =>
          simp only [List.map_cons, List.cons.injEq] at hmap
          obtain ⟨h1, h2⟩ := hmap
          by_cases hall : srest.all (fun u => u = s0)
          · simp only [hall, if_true, Option.some.injEq] at h
            have hall' : trest.all (fun u => u.shape = t.shape) = true := by
              rw [List.all_eq_true] at hall ⊢
              intro u hu
              have hmem : u.shape ∈ srest := h2 ▸ List.mem_map_of_mem Tensor.shape hu
              have := hall _ hmem
              simp only [decide_eq_true_eq] at this ⊢
              rw [this, h1]
            have hforall : ∀ x ∈ trest, x.shape = s0 := by
              intro x hx
              have hx' := List.all_eq_true.mp hall' x hx
              simp only [decide_eq_true_eq] at hx'
              rw [hx', h1]
            refine ⟨((t :: trest).map Tensor.data).flatten, ?_⟩
            simp [torch_tensor_bfloat16, hts, hall', ← h, h1]
            exact hforall
          · simp [hall] at h

/-- Elementwise version of `torch_ok` for lists of JSON values. -/
theorem torchList_ok (js : List Json) (ss : List (List ℕ)) (h : shapeList js = some ss) :
    ∃ ts, tensorList js = .ok ts ∧ ts.map Tensor.shape = ss := by
  cases js with
  | nil =>
    simp only [shapeList, Option.some.injEq] at h
    exact ⟨[], by simp [tensorList], by simp [← h]⟩
  | cons j rest =>
    cases hj : jsonShape j with
    | none => simp [shapeList, hj] at h
    | some s1 =>
      cases hr : shapeList rest with
      | none => simp [shapeList, hj, hr] at h
      | some ss' =>
        simp only [shapeList, hj, hr, Option.some.injEq] at h
        obtain ⟨d1, hd1⟩ := torch_ok j s1 hj
        obtain ⟨ts', hts', hmap'⟩ := torchList_ok rest ss' hr
        refine ⟨⟨s1, d1⟩ :: ts', ?_, ?_⟩
        · simp [tensorList, hd1, hts']
        · simp [hmap', ← h]

end

mutual

/-- When a JSON value has no uniform numeric shape (it contains non-numeric
or ragged entries), the tensor conversion fails with the validation error. -/
theorem torch_err (j : Json) (h : jsonShape j = none) :
    torch_tensor_bfloat16 j = .error .validationError := by
  cases j with
  | null => simp [torch_tensor_bfloat16]
  | str t => simp [torch_tensor_bfloat16]
  | obj fs => simp [torch_tensor_bfloat16]
  | num q => simp [jsonShape] at h
  | bool b => simp [jsonShape] at h
  | arr xs =>
    cases hs : shapeList xs with
    | none =>
      have := torchList_err xs hs
      simp [torch_tensor_bfloat16, this]
    | some ss =>
      obtain ⟨ts, hts, hmap⟩ := torchList_ok xs ss hs
      simp only [jsonShape, hs] at h
      cases ss with
      | nil => simp at h
      | cons s0 srest =>
        by_cases hall : srest.all (fun u => u = s0)
        · simp [hall] at h
        · cases ts with
          | nil => simp at hmap
          | cons t trest =>
            simp only [List.map_cons, List.cons.injEq] at hmap
            obtain ⟨h1, h2⟩ := hmap
            have hall' : trest.all (fun u => u.shape = t.shape) = false := by
              rw [Bool.eq_false_iff]
              intro hcon
              apply hall
              rw [List.all_eq_true] at hcon ⊢
              intro u hu
              obtain ⟨w, hw, rfl⟩ := List.mem_map.mp (h2 ▸ hu)
              have := hcon _ hw
              simp only [decide_eq_true_eq] at this ⊢
              rw [this, h1]
            simp [torch_tensor_bfloat16, hts, hall']

/-- Elementwise version of `torch_err` for lists of JSON values. -/
theorem torchList_err (js : List Json) (h : shapeList js = none) :
    tensorList js = .error .validationError := by
  cases js with
  | nil => simp [shapeList] at h
  | cons j rest =>
    cases hj : jsonShape j with
    | none =>
      have := torch_err j hj
      simp [tensorList, this]
    | some s1 =>
      cases hr : shapeList rest with
      | none =>
        obtain ⟨d1, hd1⟩ := torch_ok j s1 hj
        have := torchList_err rest hr
        simp [tensorList, hd1, this]
      | some ss' => simp [shapeList, hj, hr] at h

end

/-- The bfloat16 cast is exact at 0. -/
theorem toBF16_zero : toBF16 0 = .finite 0 := by simp [toBF16]

/-- The bfloat16 cast is exact at 1. -/
theorem toBF16_one : toBF16 1 = .finite 1 := by
  have h120 : (120 : ℤ).toNat = 120 := rfl
  norm_num [toBF16, floorLog2, natLog2, log2fuel, pow2, roundHalfEven, ratFloor,
    bf16MaxFinite, h120]

/-- Flattening the data of a list of scalar (0-dimensional) tensors recovers
the list of their values. -/
theorem flatten_singletons (vs : List BF16) :
    (vs.map (Tensor.data ∘ fun v => Tensor.mk [] [v])).flatten = vs := by
  induction vs with
  | nil => rfl
  | cons v rest ih => simp [ih]

/-- On numbers, the scalar entry values are exactly the bfloat16 casts. -/
theorem filterMap_scalar_nums (ns : List ℚ) :
    List.filterMap (scalarVal ∘ Json.num) ns = ns.map toBF16 := by
  induction ns with
  | nil => rfl
  | cons q rest ih => simp [scalarVal, ih]

/-- On booleans, the scalar entry values are the bfloat16 casts of 1 and 0. -/
theorem filterMap_scalar_bools (bs : List Bool) :
    List.filterMap (scalarVal ∘ Json.bool) bs = bs.map fun b => toBF16 (if b then 1 else 0) := by
  induction bs with
  | nil => rfl
  | cons b rest ih => simp [scalarVal, ih]

/-- On a list of scalar entries (numbers or booleans), elementwise conversion
yields the corresponding list of 0-dimensional tensors. -/
theorem tensorList_scalars (es : List Json) (h : ∀ e ∈ es, (scalarVal e).isSome) :
    tensorList es = .ok ((es.filterMap scalarVal).map fun v => Tensor.mk [] [v]) := by
  induction es with
  | nil => simp [tensorList]
  | cons e rest ih =>
    have he : (scalarVal e).isSome := h e (List.mem_cons_self e rest)
    have hrest := ih (fun x hx => h x (List.mem_cons_of_mem e hx))
    cases e with
    | num q => simp [tensorList, torch_tensor_bfloat16, scalarVal, hrest]
    | bool b => simp [tensorList, torch_tensor_bfloat16, scalarVal, hrest]
    | null => simp [scalarVal] at he
    | str t => simp [scalarVal] at he
    | arr ys => simp [scalarVal] at he
    | obj fs => simp [scalarVal] at he

/-- Applying `torch.tensor` to a JSON array of scalar entries yields a rank-1 tensor
whose length is the array's length and whose data are the entries' values. -/
theorem torch_scalar_list (es : List Json) (h : ∀ e ∈ es, (scalarVal e).isSome) :
    torch_tensor_bfloat16 (.arr es) = .ok ⟨[es.length], es.filterMap scalarVal⟩ := by
  have hts := tensorList_scalars es h
  cases es with
  | nil => simp [torch_tensor_bfloat16, tensorList]
  | cons e rest =>
    have he : (scalarVal e).isSome := h e (List.mem_cons_self e rest)
    obtain ⟨v, hv⟩ := Option.isSome_iff_exists.mp he
    rw [List.filterMap_cons, hv] at hts ⊢
    simp only [List.map_cons] at hts
    have hall : (((rest.filterMap scalarVal).map fun w => Tensor.mk [] [w]).all
        fun u => decide (u.shape = (Tensor.mk [] [v]).shape)) = true := by
      rw [List.all_eq_true]
      intro u hu
      obtain ⟨w, hw, rfl⟩ := List.mem_map.mp hu
      simp
    simp [torch_tensor_bfloat16, hts, hall, Function.comp, flatten_singletons]

/-- C1: for every valid JSON payload of the form with key inputs mapping to a
flat array of numbers, and for any request content type, the Deserializer
returns a rank-1 tensor of shape equal to the singleton list holding the
array's length, whose element values are exactly the inputs cast to bfloat16
by round-to-nearest-even. -/
theorem input_fn_flat_numeric (ns : List ℚ) (ct : String) :
    input_fn (.wellFormed (.obj [("inputs", .arr (ns.map Json.num))])) ct
      = .ok ⟨[ns.length], ns.map toBF16⟩ := by
  have h : ∀ e ∈ ns.map Json.num, (scalarVal e).isSome := by
    intro e he
    obtain ⟨q, hq, rfl⟩ := List.mem_map.mp he
    simp [scalarVal]
  have ht := torch_scalar_list (ns.map Json.num) h
  simp [input_fn, json_loads, subscript, dictGet, ht, filterMap_scalar_nums]

/-- C3: a payload that is not valid JSON makes the Deserializer fail with the
JSON parse error, and a valid JSON object payload lacking the inputs key makes
it fail with the missing-key error; both errors lie in the spec's ParseError
class, no tensor is produced, and the error value is the function's result,
propagating to the caller. -/
theorem input_fn_parse_failures (ct raw : String) (fields : List (String × Json))
    (h : dictGet fields "inputs" = none) :
    input_fn (.malformed raw) ct = .error .parseError ∧
    input_fn (.wellFormed (.obj fields)) ct = .error .keyError ∧
    isSpecParseError .parseError = true ∧ isSpecParseError .keyError = true := by
  refine ⟨rfl, ?_, rfl, rfl⟩
  simp [input_fn, json_loads, subscript, h]

/-- Witness for C3 at a malformed body and an object without inputs. -/
theorem input_fn_parse_failures_witness :
    dictGet [("other", Json.num 1)] "inputs" = none ∧
    (input_fn (.malformed "\x7bnot json") "application/json" = .error .parseError ∧
     input_fn (.wellFormed (.obj [("other", Json.num 1)])) "application/json" = .error .keyError ∧
     isSpecParseError .parseError = true ∧ isSpecParseError .keyError = true) := by
  have h : dictGet [("other", Json.num 1)] "inputs" = none := by simp [dictGet]
  exact ⟨h, input_fn_parse_failures "application/json" "\x7bnot json" _ h⟩

/-- C4: when the inputs field holds data outside the set torch accepts (a
string, null or object anywhere inside, or a ragged nesting), the Deserializer
fails with the validation error and produces no tensor; the error is the
function's result, propagating unchanged to the caller.  (Python booleans
are numeric — bool is a subclass of int — so they are not rejected.) -/
theorem input_fn_rejects_nonnumeric (ct : String) (fields : List (String × Json)) (j : Json)
    (hget : dictGet fields "inputs" = some j) (hbad : validTensorData j = false) :
    input_fn (.wellFormed (.obj fields)) ct = .error .validationError := by
  have hnone : jsonShape j = none := by
    cases hj : jsonShape j with
    | none => rfl
    | some s => simp [validTensorData, hj] at hbad
  have herr := torch_err j hnone
  simp [input_fn, json_loads, subscript, hget, herr]

/-- Witness for C4 at a payload whose inputs is a string. -/
theorem input_fn_rejects_nonnumeric_witness :
    dictGet [("inputs", Json.str "abc")] "inputs" = some (Json.str "abc") ∧
    validTensorData (Json.str "abc") = false ∧
    input_fn (.wellFormed (.obj [("inputs", Json.str "abc")])) "application/json"
      = .error .validationError := by
  have h1 : dictGet [("inputs", Json.str "abc")] "inputs" = some (Json.str "abc") := by
    simp [dictGet]
  have h2 : validTensorData (Json.str "abc") = false := by simp [validTensorData, jsonShape]
  exact ⟨h1, h2, input_fn_rejects_nonnumeric "application/json" _ _ h1 h2⟩

/-- C6: for every payload whose inputs field is uniformly nested numeric
data of shape s, the Deserializer succeeds and the returned tensor has
exactly shape s. -/
theorem input_fn_preserves_shape (ct : String) (j : Json) (s : List ℕ)
    (h : jsonShape j = some s) :
    ∃ d, input_fn (.wellFormed (.obj [("inputs", j)])) ct = .ok ⟨s, d⟩ := by
  obtain ⟨d, hd⟩ := torch_ok j s h
  refine ⟨d, ?_⟩
  simp [input_fn, json_loads, subscript, dictGet, hd]

/-- Witness for C6: the nested payload of two rows of two numbers yields a
rank-2 tensor of shape (2,2). -/
theorem input_fn_preserves_shape_witness :
    jsonShape (.arr [.arr [.num 1, .num 2], .arr [.num 3, .num 4]]) = some [2, 2] ∧
    ∃ d, input_fn (.wellFormed (.obj [("inputs",
        .arr [.arr [.num 1, .num 2], .arr [.num 3, .num 4]])])) "application/json"
      = .ok ⟨[2, 2], d⟩ := by
  have h : jsonShape (Json.arr [.arr [.num 1, .num 2], .arr [.num 3, .num 4]]) = some [2, 2] := by
    simp [jsonShape, shapeList]
  exact ⟨h, input_fn_preserves_shape "application/json" _ [2, 2] h⟩

/-- C9: two valid JSON object payloads whose inputs fields agree produce the
same Deserializer result whatever other top-level fields each carries: no
field other than inputs is read. -/
theorem input_fn_reads_only_inputs (ct : String) (f1 f2 : List (String × Json))
    (h : dictGet f1 "inputs" = dictGet f2 "inputs") :
    input_fn (.wellFormed (.obj f1)) ct = input_fn (.wellFormed (.obj f2)) ct := by
  simp only [input_fn, json_loads, subscript]
  rw [h]

/-- Witness for C9 on two objects with equal inputs and different extra
fields. -/
theorem input_fn_reads_only_inputs_witness :
    dictGet [("inputs", Json.num 1), ("extra", Json.bool true)] "inputs"
      = dictGet [("other", Json.null), ("inputs", Json.num 1)] "inputs" ∧
    input_fn (.wellFormed (.obj [("inputs", Json.num 1), ("extra", Json.bool true)])) "text/csv"
      = input_fn (.wellFormed (.obj [("other", Json.null), ("inputs", Json.num 1)])) "text/csv" := by
  have h : dictGet [("inputs", Json.num 1), ("extra", Json.bool true)] "inputs"
      = dictGet [("other", Json.null), ("inputs", Json.num 1)] "inputs" := by
    simp [dictGet]
  exact ⟨h, input_fn_reads_only_inputs "text/csv" _ _ h⟩

/-- C10: the Deserializer accepts JSON booleans in the inputs field — a bare
boolean or booleans inside an array — and converts true to the numeric value 1
and false to 0 in the resulting bfloat16 tensor, without failing. -/
theorem input_fn_accepts_booleans (ct : String) :
    (∀ bs : List Bool,
        input_fn (.wellFormed (.obj [("inputs", .arr (bs.map Json.bool))])) ct
          = .ok ⟨[bs.length], bs.map fun b => BF16.finite (if b then 1 else 0)⟩) ∧
    (∀ b : Bool,
        input_fn (.wellFormed (.obj [("inputs", .bool b)])) ct
          = .ok ⟨[], [BF16.finite (if b then 1 else 0)]⟩) := by
  have hbf : ∀ b : Bool, toBF16 (if b then 1 else 0) = .finite (if b then 1 else 0) := by
    intro b
    cases b
    · simpa using toBF16_zero
    · simpa using toBF16_one
  constructor
  · intro bs
    have h : ∀ e ∈ bs.map Json.bool, (scalarVal e).isSome := by
      intro e he
      obtain ⟨b, hb, rfl⟩ := List.mem_map.mp he
      simp [scalarVal]
    have ht := torch_scalar_list (bs.map Json.bool) h
    simp [input_fn, json_loads, subscript, dictGet, ht, filterMap_scalar_bools, hbf]
  · intro b
    simp [input_fn, json_loads, subscript, dictGet, torch_tensor_bfloat16, hbf b]

end EndpointServing
